import Mathlib

/-
Verification of the osc2wss core: the Argument Encoder and Message
Normalizer (src/types.rs), the Ingest Loop and Subscriber Task loop
(src/main.rs), and the Fanout Bus (the tokio broadcast channel created
at src/main.rs line 95).

Modelling conventions:
- f32/f64 values are dyadic rationals; they are modelled exactly as a
  pair num/2^exp. serde_json renders a float through ryu, which on a
  value with a short finite decimal expansion (such as 1.5 or 1.0)
  prints exactly that decimal with at least one fractional digit, which
  is what renderDyadic produces.
- Rust u32 arithmetic is modelled with checked semantics: the default
  cargo profile has overflow checks on, so a u32 subtraction that
  underflows is a panic, modelled as Option.none.
- The f64 arithmetic in the Time arm is modelled exactly, including
  IEEE round-to-nearest-even. In that expression the u32-to-f64 casts
  and the division by 2^32 (a power of two, result far above the
  subnormal range) are exact, so rounding happens at exactly two
  places, the addition and the multiplication by 1000.0; roundF64
  applies the 53-significant-bit rounding at each, and the final cast
  as u64 of the nonnegative result truncates toward zero. All values
  involved are far below the f64 overflow range. The infinitely
  precise value of the same expression is kept alongside as
  exactEpochTimeMs, to compare the code against the formula stated by
  the spec.
- serde_json serialization of OscMessageWrapper is deterministic; it is
  modelled as a pure function to a JSON tree plus a compact renderer
  that mirrors serde_json string output (struct fields in declaration
  order, no whitespace).
-/

/-- A float value idealized as the exact dyadic rational num / 2^exp.
Every f32 and f64 value other than the non-finite ones is such a
rational. -/
structure Dyadic where
  num : Int
  exp : Nat

/-- The rational value of a dyadic. -/
def Dyadic.toRat (d : Dyadic) : ℚ := (d.num : ℚ) / (2 ^ d.exp : ℚ)

/-- JSON tree as produced by serde_json for OscMessageWrapper: numbers keep
their provenance (integer-typed Rust values versus f32/f64 values), since
serde_json renders integers without a decimal point and floats with one. -/
inductive Json where
  | null : Json
  | bool (b : Bool) : Json
  | int (i : Int) : Json
  | float (d : Dyadic) : Json
  | str (s : String) : Json
  | arr (xs : List Json) : Json
  | obj (fields : List (String × Json)) : Json

/-- Lowercase hex digit, as serde_json uses in control-character escapes. -/
def hexDigit (n : Nat) : Char :=
  if n < 10 then Char.ofNat (48 + n) else Char.ofNat (87 + n)

/-- Escape one character the way serde_json escapes string contents. -/
def escapeChar (c : Char) : String :=
  if c = '"' then "\\\""
  else if c = '\\' then "\\\\"
  else if c = Char.ofNat 8 then "\\b"
  else if c = Char.ofNat 9 then "\\t"
  else if c = Char.ofNat 10 then "\\n"
  else if c = Char.ofNat 12 then "\\f"
  else if c = Char.ofNat 13 then "\\r"
  else if c.toNat < 32 then
    "\\u00" ++ String.mk [hexDigit (c.toNat / 16), hexDigit (c.toNat % 16)]
  else String.mk [c]

/-- Render a JSON string literal with quotes and escapes. -/
def renderString (s : String) : String :=
  "\"" ++ String.join (s.data.map escapeChar) ++ "\""

/-- Decimal digits of rem / 2^exp for 0 ≤ rem < 2^exp, with fuel bounding
the digit count; a finite decimal expansion stops when rem reaches 0. -/
def fracDigits (rem : Nat) (exp : Nat) (fuel : Nat) : List Char :=
  match fuel with
  | 0 => []
  | fuel2 + 1 =>
    if rem = 0 then []
    else
      Char.ofNat (48 + rem * 10 / 2 ^ exp) :: fracDigits (rem * 10 % 2 ^ exp) exp fuel2

/-- Render a nonnegative dyadic num / 2^exp the way ryu renders a float
with a short finite decimal expansion: integer part, a point, then at
least one digit. -/
def renderDyadicNonneg (num : Nat) (exp : Nat) : String :=
  let ip := num / 2 ^ exp
  let ds := fracDigits (num % 2 ^ exp) exp 64
  match ds with
  | [] => toString ip ++ ".0"
  | _ => toString ip ++ "." ++ String.mk ds

/-- Render a dyadic as serde_json renders a float value with a short
finite decimal expansion. -/
def renderDyadic (d : Dyadic) : String :=
  match d.num with
  | Int.ofNat n => renderDyadicNonneg n d.exp
  | Int.negSucc n => "-" ++ renderDyadicNonneg (n + 1) d.exp

mutual

/-- Compact rendering of a Json tree, mirroring serde_json to_string output. -/
def renderJson : Json → String
  | Json.null => "null"
  | Json.bool b => cond b "true" "false"
  | Json.int i => toString i
  | Json.float d => renderDyadic d
  | Json.str s => renderString s
  | Json.arr xs => "[" ++ String.intercalate "," (renderJsonList xs) ++ "]"
  | Json.obj fs => "\x7b" ++ String.intercalate "," (renderJsonFields fs) ++ "\x7d"

def renderJsonList : List Json → List String
  | [] => []
  | j :: js => renderJson j :: renderJsonList js

def renderJsonFields : List (String × Json) → List String
  | [] => []
  | (k, v) :: fs => (renderString k ++ ":" ++ renderJson v) :: renderJsonFields fs

end

/-- OscColorWrapper from src/types.rs: r, g, b, a are u8. -/
structure OscColorWrapper where
  r : Nat
  g : Nat
  b : Nat
  a : Nat

/-- OscTypeWrapper from src/types.rs: the closed argument variant set.
Int is i32, Long is i64 (both modelled as Int); Float is f32 and Double
is f64 (modelled as exact dyadic rationals); Blob and Midi carry u8
bytes; Time carries the (secs_since_1900, frac_secs) pair of u32
values. -/
inductive OscTypeWrapper where
  | Int (i : Int) : OscTypeWrapper
  | Float (f : Dyadic) : OscTypeWrapper
  | String (s : String) : OscTypeWrapper
  | Blob (b : List Nat) : OscTypeWrapper
  | Time (t : Nat × Nat) : OscTypeWrapper
  | Long (h : Int) : OscTypeWrapper
  | Double (d : Dyadic) : OscTypeWrapper
  | Char (c : Char) : OscTypeWrapper
  | Color (c : OscColorWrapper) : OscTypeWrapper
  | Midi (m : List Nat) : OscTypeWrapper
  | Bool (b : Bool) : OscTypeWrapper
  | Array (xs : List OscTypeWrapper) : OscTypeWrapper
  | Nil : OscTypeWrapper
  | Inf : OscTypeWrapper

/-- Number of binary digits of n, with explicit fuel so that the kernel
can evaluate it (128 bits of fuel covers every quantity in the Time
arm). -/
def bitLenAux : Nat → Nat → Nat
  | 0, _ => 0
  | fuel + 1, n => if n = 0 then 0 else bitLenAux fuel (n / 2) + 1

/-- Number of binary digits of n. -/
def bitLen (n : Nat) : Nat := bitLenAux 128 n

/-- IEEE round-to-nearest-even of the nonnegative dyadic num / 2^exp to
53 significant bits: the f64 rounding of a value in the normal range.
If num already fits in 53 bits the value is exactly representable;
otherwise the significand is cut after 53 bits, rounding up when the
remainder is above half an ulp and to the even neighbour on a tie. -/
def roundF64 (num exp : Nat) : Nat × Nat :=
  if bitLen num ≤ 53 then (num, exp)
  else
    let shift := bitLen num - 53
    let q := num / 2 ^ shift
    let r := num % 2 ^ shift
    let half := 2 ^ (shift - 1)
    let q2 := if half < r then q + 1 else if r < half then q else q + q % 2
    (q2 * 2 ^ shift, exp)

/-- The epochTimeMs computation from the Time arm of Serialize for
OscTypeWrapper (src/types.rs lines 107 to 110), after the u32
subtraction has already succeeded. The source computes
((secs_since_1970 + decimals) * 1000.0) as u64 in f64 arithmetic, where
secs_since_1970 and decimals = frac / 2^32 are themselves exact; the
sum (secs - 2208988800) + frac / 2^32 = N / 2^32 with
N = (secs - 2208988800) * 2^32 + frac is rounded to f64, the product
with the exact 1000.0 is rounded again, and the cast as u64 of the
nonnegative result truncates toward zero, which is the natural number
division by the power-of-two denominator. -/
def epochTimeMs (secs frac : Nat) : Nat :=
  let sum := roundF64 ((secs - 2208988800) * 4294967296 + frac) 32
  let prod := roundF64 (sum.1 * 1000) sum.2
  prod.1 / 2 ^ prod.2

/-- The infinitely precise value of the same expression: truncating it
gives the exact-arithmetic reading of the formula, against which the
f64 computation is compared. -/
def exactEpochTimeMs (secs frac : Nat) : Nat :=
  ((secs - 2208988800) * 4294967296 + frac) * 1000 / 4294967296

/-- The exact rational value of the f64 expression in the Time arm:
secs_since_1970 + frac / 2^32, all times 1000, with the u32 subtraction
already performed (Nat subtraction: the arm only runs when it does not
underflow). -/
def epochTimeMsRat (secs frac : Nat) : ℚ :=
  (((secs - 2208988800 : Nat) : ℚ) + (frac : ℚ) / 4294967296) * 1000

mutual

/-- Serialize for OscTypeWrapper (src/types.rs lines 73 to 153), as the
JSON tree serde_json builds from it. Result none models a panic: the
Time arm computes secs_since_1900 - 2208988800 in u32, which underflows
when secs_since_1900 < 2208988800 (a panic under the default debug
profile overflow checks). Every other arm always succeeds. -/
def serializeArg : OscTypeWrapper → Option Json
  | OscTypeWrapper.Int i =>
    some (Json.obj [("type", Json.str "i"), ("value", Json.int i)])
  | OscTypeWrapper.Float f =>
    some (Json.obj [("type", Json.str "f"), ("value", Json.float f)])
  | OscTypeWrapper.String s =>
    some (Json.obj [("type", Json.str "s"), ("value", Json.str s)])
  | OscTypeWrapper.Blob b =>
    some (Json.obj [("type", Json.str "b"),
                    ("value", Json.arr (b.map fun x => Json.int (x : Int)))])
  | OscTypeWrapper.Time t =>
    if 2208988800 ≤ t.1 then
      some (Json.obj [("rawNTP", Json.arr [Json.int (t.1 : Int), Json.int (t.2 : Int)]),
                      ("epochTimeMs", Json.int (epochTimeMs t.1 t.2 : Int))])
    else none
  | OscTypeWrapper.Long h =>
    some (Json.obj [("type", Json.str "h"), ("value", Json.int h)])
  | OscTypeWrapper.Double d =>
    some (Json.obj [("type", Json.str "d"), ("value", Json.float d)])
  | OscTypeWrapper.Char c =>
    some (Json.obj [("type", Json.str "c"), ("value", Json.str (String.mk [c]))])
  | OscTypeWrapper.Color c =>
    some (Json.obj [("type", Json.str "r"),
                    ("value", Json.obj [("r", Json.int (c.r : Int)), ("g", Json.int (c.g : Int)),
                                        ("b", Json.int (c.b : Int)), ("a", Json.int (c.a : Int))])])
  | OscTypeWrapper.Midi m =>
    some (Json.obj [("type", Json.str "m"),
                    ("value", Json.arr (m.map fun x => Json.int (x : Int)))])
  | OscTypeWrapper.Bool b => some (Json.bool b)
  | OscTypeWrapper.Array xs =>
    match serializeArgs xs with
    | some js => some (Json.arr js)
    | none => none
  | OscTypeWrapper.Nil => some Json.null
  | OscTypeWrapper.Inf => some (Json.float (Dyadic.mk 1 0))

/-- Elementwise serialization of an argument list, failing if any element
fails (a panic inside one element aborts the whole serialization). -/
def serializeArgs : List OscTypeWrapper → Option (List Json)
  | [] => some []
  | a :: rest =>
    match serializeArg a, serializeArgs rest with
    | some j, some js => some (j :: js)
    | _, _ => none

end

/-- OscMessageWrapper from src/types.rs lines 55 to 71: an address plus
the argument list (OscMessageWrapper.new is a field-for-field copy of
the decoded OscMessage, so the wrapper is the message). -/
structure OscMessageWrapper where
  address : String
  args : List OscTypeWrapper

/-- Serialize for OscMessageWrapper (derived): the struct with fields
address then args, where args serializes elementwise; fails if any
argument serialization panics. -/
def serializeMessage (m : OscMessageWrapper) : Option Json :=
  match serializeArgs m.args with
  | some js => some (Json.obj [("address", Json.str m.address), ("args", Json.arr js)])
  | none => none

/-- serde_json to_string applied to an OscMessageWrapper, as done at
src/main.rs line 106: the compact JSON text of the serialized tree.
Result none models a serialization panic (Time underflow). -/
def serde_json_to_string (m : OscMessageWrapper) : Option String :=
  match serializeMessage m with
  | some j => some (renderJson j)
  | none => none

mutual

/-- Predicate on arguments: every Timestamp inside (also nested in
Arrays) has secs_since_1900 at least the NTP-to-Unix offset, so that
the u32 subtraction in the Time arm cannot underflow. -/
def timesOk : OscTypeWrapper → Bool
  | OscTypeWrapper.Time t => decide (2208988800 ≤ t.1)
  | OscTypeWrapper.Array xs => timesOkList xs
  | _ => true

/-- List version of timesOk. -/
def timesOkList : List OscTypeWrapper → Bool
  | [] => true
  | a :: rest => timesOk a && timesOkList rest

end

/-- OscPacket from async_osc as matched at src/main.rs lines 103 to 119:
either a single message or a bundle (whose payload the code ignores). -/
inductive OscPacket where
  | Message (m : OscMessageWrapper) : OscPacket
  | Bundle : OscPacket

/-- One item yielded by osc_socket.next() at src/main.rs line 101: a
successfully decoded packet, or a decode failure of the datagram. -/
inductive SocketItem where
  | ok (p : OscPacket) : SocketItem
  | decodeErr : SocketItem

/-- Observable state of the ingest task spawned at src/main.rs line 98:
the loop-local sticky warned_bundle flag, the messages published to the
broadcast channel in order, and how many bundle warnings were printed. -/
structure IngestState where
  warned_bundle : Bool
  published : List String
  warnings : Nat

/-- Outcome of running the ingest loop: still running (awaiting the next
datagram) with the given state, or the task panicked with the state it
had reached. -/
inductive IngestOutcome where
  | running (s : IngestState) : IngestOutcome
  | panicked (s : IngestState) : IngestOutcome

/-- One iteration of the ingest loop body (src/main.rs lines 101 to 120).
A decode failure panics at the unwrap on line 102. A message is
serialized (serde_json to_string unwrap on line 106: a serialization
panic propagates) and sent on the broadcast channel; the send succeeds
because main holds a receiver (see the channel model below). A bundle
prints a warning only if warned_bundle is not yet set, then sets it. -/
def ingestStep (s : IngestState) : SocketItem → IngestOutcome
  | SocketItem.decodeErr => IngestOutcome.panicked s
  | SocketItem.ok (OscPacket.Message m) =>
    match serde_json_to_string m with
    | some json_string =>
      IngestOutcome.running (IngestState.mk s.warned_bundle (s.published ++ [json_string]) s.warnings)
    | none => IngestOutcome.panicked s
  | SocketItem.ok OscPacket.Bundle =>
    if s.warned_bundle then IngestOutcome.running s
    else IngestOutcome.running (IngestState.mk true s.published (s.warnings + 1))

/-- The ingest loop run over a finite prefix of the socket stream,
stopping early if an iteration panics. -/
def ingestRun (s : IngestState) : List SocketItem → IngestOutcome
  | [] => IngestOutcome.running s
  | item :: rest =>
    match ingestStep s item with
    | IngestOutcome.running s2 => ingestRun s2 rest
    | IngestOutcome.panicked s2 => IngestOutcome.panicked s2

/-- Whether a packet is a bundle. -/
def isBundle : OscPacket → Bool
  | OscPacket.Bundle => true
  | OscPacket.Message _ => false

/-- The strings the ingest loop publishes for a packet list: one JSON
string per message, nothing for a bundle. -/
def publishedOf : List OscPacket → List String
  | [] => []
  | OscPacket.Message m :: rest =>
    match serde_json_to_string m with
    | some js => js :: publishedOf rest
    | none => publishedOf rest
  | OscPacket.Bundle :: rest => publishedOf rest

/-- Every message in the packet list serializes without a panic. -/
def packetsOk : List OscPacket → Bool
  | [] => true
  | OscPacket.Message m :: rest => (serde_json_to_string m).isSome && packetsOk rest
  | OscPacket.Bundle :: rest => packetsOk rest

/-- Capacity of the broadcast channel created at src/main.rs line 95. -/
def oscChannelCapacity : Nat := 16

/-- Modelled from the spec: the tokio broadcast channel internals are not
part of this repository, so the Fanout Bus ring buffer is modelled from
section 4.3 of the spec. The bus is the full publish history (oldest
first); only the last oscChannelCapacity items are retained, older ones
having been evicted by later publishes. -/
structure FanoutBus where
  history : List String

/-- Publish appends one item unconditionally: it is a total function of
the bus and the item only, never consulting or waiting on subscriber
state. -/
def FanoutBus.publish (b : FanoutBus) (msg : String) : FanoutBus :=
  FanoutBus.mk (b.history ++ [msg])

/-- Index of the oldest still-retained item. -/
def FanoutBus.oldestRetained (b : FanoutBus) : Nat :=
  b.history.length - oscChannelCapacity

/-- The retained window: the most recent oscChannelCapacity items. -/
def FanoutBus.retained (b : FanoutBus) : List String :=
  b.history.drop b.oldestRetained

/-- Modelled from the spec: result of one receive on a subscriber cursor
(section 4.3 and the design notes): the next item, a lag indication
carrying the skipped count, or the closed signal. -/
inductive RecvResult where
  | ok (msg : String) : RecvResult
  | lagged (skipped : Nat) : RecvResult
  | closed : RecvResult

/-- Modelled from the spec: receive at cursor position pos. A cursor
behind the retention window yields lagged with the number of skipped
items and repositions to the oldest retained item; otherwise the item
at pos is delivered and the cursor advances; none means no item is
ready yet and the receive suspends. -/
def FanoutBus.recv (b : FanoutBus) (pos : Nat) : Option (RecvResult × Nat) :=
  if pos < b.oldestRetained then
    some (RecvResult.lagged (b.oldestRetained - pos), b.oldestRetained)
  else
    match b.history.get? pos with
    | some m => some (RecvResult.ok m, pos + 1)
    | none => none

/-- Result of one websocket send. -/
inductive SendResult where
  | ok : SendResult
  | err : SendResult

/-- Control flow after one iteration of the subscriber loop. -/
inductive LoopCtrl where
  | continueLoop (forwarded : String) : LoopCtrl
  | breakLoop (wsClosed : Bool) : LoopCtrl

/-- One iteration of the subscriber loop body (src/main.rs lines 144 to
164): on Ok the message is forwarded and the loop continues if the send
succeeded, else the websocket is closed and the loop breaks; on any
recv error (both the lagged and the closed variant reach the same Err
arm) the loop prints the FATAL line and breaks. -/
def subscriberIter (r : RecvResult) (send_res : SendResult) : LoopCtrl :=
  match r with
  | RecvResult.ok msg =>
    match send_res with
    | SendResult.ok => LoopCtrl.continueLoop msg
    | SendResult.err => LoopCtrl.breakLoop true
  | RecvResult.lagged _ => LoopCtrl.breakLoop false
  | RecvResult.closed => LoopCtrl.breakLoop false

/-- Modelled from the spec: the whole fanout system as seen across tasks.
Each subscriber slot holds its cursor position while the task is alive,
or none once the task has terminated and dropped its receiver. -/
structure FanoutSystem where
  bus : FanoutBus
  subs : List (Option Nat)

/-- What a subscriber task does on a send failure (src/main.rs lines 152
to 156): close the websocket and break, which drops its receiver; the
only change to shared state is that its own slot is vacated. -/
def handleSendFailure (sys : FanoutSystem) (i : Nat) : FanoutSystem :=
  FanoutSystem.mk sys.bus (sys.subs.set i none)

/-- Modelled from the spec and the tokio broadcast contract: the receiver
handles existing on the channel from src/main.rs line 95. The original
osc_rx stays bound in main for the process lifetime; subscriber tasks
add and drop their own receivers. -/
structure ChannelHandles where
  origReceiverAlive : Bool
  subscriberCount : Nat

/-- Number of live receiver handles. -/
def receiverCount (c : ChannelHandles) : Nat :=
  (cond c.origReceiverAlive 1 0) + c.subscriberCount

/-- Modelled from the tokio broadcast contract: send returns Ok exactly
when at least one receiver handle exists, so the unwrap at src/main.rs
line 111 panics exactly when receiverCount is zero. -/
def sendOk (c : ChannelHandles) : Bool := decide (0 < receiverCount c)

/-- Receiver-handle events during the process lifetime: a websocket
upgrade subscribes (src/main.rs line 143); a subscriber task ending
drops its receiver. main never drops the original osc_rx, which stays
in scope across the final warp serve await. -/
inductive HandleStep : ChannelHandles → ChannelHandles → Prop
  | subscribe (o : Bool) (n : Nat) :
      HandleStep (ChannelHandles.mk o n) (ChannelHandles.mk o (n + 1))
  | subscriberDrop (o : Bool) (n : Nat) :
      HandleStep (ChannelHandles.mk o (n + 1)) (ChannelHandles.mk o n)

/-- Channel states reachable from process start, where main holds the
original receiver and no subscriber has joined yet. -/
inductive HandleReachable : ChannelHandles → Prop
  | init : HandleReachable (ChannelHandles.mk true 0)
  | step (c c2 : ChannelHandles) :
      HandleReachable c → HandleStep c c2 → HandleReachable c2

/-- Whether a JSON value is the type/value envelope used by the tagged
encodings: an object whose fields are exactly a string tag named type
followed by a value field. -/
def isEnvelope : Json → Bool
  | Json.obj (("type", Json.str _) :: ("value", _) :: []) => true
  | _ => false

/-- A concrete bus whose history exceeds the retention window. -/
def lagDemoBus : FanoutBus := FanoutBus.mk (List.replicate 20 "m")

/-- A concrete bus whose retained window is exactly full. -/
def fullDemoBus : FanoutBus := FanoutBus.mk (List.replicate 16 "a")

/-- A concrete message that serializes without panic. -/
def demoMsg : OscMessageWrapper := OscMessageWrapper.mk "/x" []

/-- A concrete packet sequence with two bundles around a message. -/
def demoPkts : List OscPacket :=
  [OscPacket.Bundle, OscPacket.Message demoMsg, OscPacket.Bundle]

/-- A concrete fanout system with two live subscribers. -/
def demoSystem : FanoutSystem :=
  FanoutSystem.mk (FanoutBus.mk ["x"]) [some 3, some 5]

/-- The epochTimeMs formula exactly as the spec states it: the NTP-to-Unix
offset subtracted in unbounded integer arithmetic, the fraction divided by
2^32, the sum scaled by 1000 and truncated. Stated over the rationals for
comparison with the code-side epochTimeMs. -/
def specEpochTimeMs (secs frac : Nat) : Int :=
  ⌊(((secs : ℚ) - 2208988800) + (frac : ℚ) / 4294967296) * 1000⌋

theorem epochTimeMsRat_eq_div (secs frac : Nat) :
    epochTimeMsRat secs frac =
      ((((secs - 2208988800) * 4294967296 + frac) * 1000 : Nat) : ℚ) / ((4294967296 : Nat) : ℚ) := by
  unfold epochTimeMsRat
  push_cast
  field_simp

/-- The Nat-division form of exactEpochTimeMs computes exactly the floor
of the infinitely precise rational value of the f64 expression in the
Time arm. -/
theorem exactEpochTimeMs_eq_floor (secs frac : Nat) :
    (exactEpochTimeMs secs frac : ℤ) = ⌊epochTimeMsRat secs frac⌋ := by
  have hnn : (0 : ℚ) ≤ epochTimeMsRat secs frac := by
    rw [epochTimeMsRat_eq_div]; positivity
  rw [← Int.natCast_floor_eq_floor hnn, epochTimeMsRat_eq_div, Nat.floor_div_eq_div]
  rfl

/-- When the u32 subtraction does not underflow, the infinitely precise
truncated value agrees with the formula of the spec. -/
theorem exactEpochTimeMs_eq_spec (secs frac : Nat) (h : 2208988800 ≤ secs) :
    (exactEpochTimeMs secs frac : ℤ) = specEpochTimeMs secs frac := by
  rw [exactEpochTimeMs_eq_floor]
  unfold epochTimeMsRat specEpochTimeMs
  rw [Nat.cast_sub h]
  norm_num

mutual

/-- Serialization succeeds on every argument whose timestamps do not
underflow. -/
theorem serializeArg_isSome : ∀ a : OscTypeWrapper, timesOk a = true → (serializeArg a).isSome = true
  | OscTypeWrapper.Int _, _ => rfl
  | OscTypeWrapper.Float _, _ => rfl
  | OscTypeWrapper.String _, _ => rfl
  | OscTypeWrapper.Blob _, _ => rfl
  | OscTypeWrapper.Time t, h => by
    have ht : 2208988800 ≤ t.1 := by simpa [timesOk] using h
    simp [serializeArg, ht]
  | OscTypeWrapper.Long _, _ => rfl
  | OscTypeWrapper.Double _, _ => rfl
  | OscTypeWrapper.Char _, _ => rfl
  | OscTypeWrapper.Color _, _ => rfl
  | OscTypeWrapper.Midi _, _ => rfl
  | OscTypeWrapper.Bool _, _ => rfl
  | OscTypeWrapper.Array xs, h => by
    have hx : (serializeArgs xs).isSome = true :=
      serializeArgs_isSome xs (by simpa [timesOk] using h)
    rw [Option.isSome_iff_exists] at hx
    obtain ⟨js, hjs⟩ := hx
    simp [serializeArg, hjs]
  | OscTypeWrapper.Nil, _ => rfl
  | OscTypeWrapper.Inf, _ => rfl

/-- Elementwise serialization succeeds on every list of arguments whose
timestamps do not underflow. -/
theorem serializeArgs_isSome : ∀ xs : List OscTypeWrapper,
    timesOkList xs = true → (serializeArgs xs).isSome = true
  | [], _ => rfl
  | a :: rest, h => by
    have h2 : timesOk a = true ∧ timesOkList rest = true := by
      simpa [timesOkList, Bool.and_eq_true] using h
    have ha := serializeArg_isSome a h2.1
    have hr := serializeArgs_isSome rest h2.2
    rw [Option.isSome_iff_exists] at ha hr
    obtain ⟨j, hj⟩ := ha
    obtain ⟨js, hjs⟩ := hr
    simp [serializeArgs, hj, hjs]

end

/-- Running the ingest loop over well-decoded packets whose messages all
serialize: from any starting state, the loop stays running, publishes
exactly the JSON of the messages in order, sets the sticky flag iff some
bundle occurred, and warns once iff the flag was clear and some bundle
occurred. -/
theorem ingestRun_ok (pkts : List OscPacket) : ∀ s : IngestState, packetsOk pkts = true →
    ingestRun s (pkts.map SocketItem.ok) =
      IngestOutcome.running (IngestState.mk (s.warned_bundle || pkts.any isBundle)
        (s.published ++ publishedOf pkts)
        (s.warnings + cond (s.warned_bundle || !(pkts.any isBundle)) 0 1)) := by
  induction pkts with
  | nil => intro s h; simp [ingestRun, publishedOf]
  | cons p rest ih =>
    rintro ⟨w, pub, warn⟩ h
    cases p with
    | Message m =>
      simp only [packetsOk, Bool.and_eq_true] at h
      have hm := h.1
      rw [Option.isSome_iff_exists] at hm
      obtain ⟨j, hj⟩ := hm
      simp only [List.map_cons, ingestRun, ingestStep, hj]
      rw [ih _ h.2]
      simp [publishedOf, hj, isBundle]
    | Bundle =>
      simp only [packetsOk] at h
      cases w
      · simp only [List.map_cons, ingestRun, ingestStep, Bool.false_eq_true, if_false]
        rw [ih _ h]
        simp [publishedOf, isBundle]
      · simp only [List.map_cons, ingestRun, ingestStep, if_true]
        rw [ih _ h]
        simp [publishedOf, isBundle]

/-- C1 counterexample: a receive that reports lag does not let the
subscriber continue its forwarding loop; the loop body maps any recv
error, including the lagged indication, to a break that terminates the
subscriber task, contradicting the claim that lag never terminates it. -/
theorem claim_C1_cex :
    subscriberIter (RecvResult.lagged 17) SendResult.ok = LoopCtrl.breakLoop false := rfl

/-- C1 (amended): for a subscriber behind the retention window, the
receive reports how many items were skipped and repositions the cursor
to the oldest still-retained item, and a publish never waits on
subscriber state; but the subscriber loop treats the lag indication as
fatal and terminates (without a panic and without touching the bus),
rather than continuing its forwarding loop. -/
theorem claim_C1_amended (b : FanoutBus) (pos : Nat) (h : pos < b.oldestRetained)
    (sr : SendResult) :
    b.recv pos = some (RecvResult.lagged (b.oldestRetained - pos), b.oldestRetained) ∧
    subscriberIter (RecvResult.lagged (b.oldestRetained - pos)) sr = LoopCtrl.breakLoop false ∧
    (∀ msg, (b.publish msg).history = b.history ++ [msg]) := by
  refine ⟨?_, rfl, fun msg => rfl⟩
  unfold FanoutBus.recv
  simp [h]

/-- C1 witness: amended claim at a 20-item bus with a cursor at 0. -/
theorem claim_C1_witness :
    0 < lagDemoBus.oldestRetained ∧
    (lagDemoBus.recv 0 =
        some (RecvResult.lagged (lagDemoBus.oldestRetained - 0), lagDemoBus.oldestRetained) ∧
      subscriberIter (RecvResult.lagged (lagDemoBus.oldestRetained - 0)) SendResult.ok =
        LoopCtrl.breakLoop false ∧
      (∀ msg, (lagDemoBus.publish msg).history = lagDemoBus.history ++ [msg])) :=
  ⟨by decide, claim_C1_amended lagDemoBus 0 (by decide) SendResult.ok⟩

/-- C2 counterexample: a datagram whose decode fails makes the ingest
task panic at the unwrap, and the loop does not continue: a well-formed
message arriving right after is never processed or published. -/
theorem claim_C2_cex :
    ingestRun (IngestState.mk false [] 0)
      [SocketItem.decodeErr, SocketItem.ok (OscPacket.Message demoMsg)] =
      IngestOutcome.panicked (IngestState.mk false [] 0) := rfl

/-- C2 (amended): a decode failure is fatal to the Ingest Loop: the task
panics at the unwrap with its state unchanged, the datagram is not
logged-and-dropped, and no subsequent datagram is processed. -/
theorem claim_C2_amended (s : IngestState) (rest : List SocketItem) :
    ingestRun s (SocketItem.decodeErr :: rest) = IngestOutcome.panicked s := rfl

/-- C3 counterexample: the Argument Encoder is not total on the closed
variant set: a Timestamp with secs_since_1900 below the NTP-to-Unix
offset makes the u32 subtraction underflow, so serialization fails
instead of producing a WireValue. -/
theorem claim_C3_cex : serializeArg (OscTypeWrapper.Time (0, 1)) = none := rfl

/-- C3 (amended): on every Arg whose timestamps (also nested in arrays)
have secs_since_1900 at least 2208988800, encoding produces exactly one
WireValue, and the same Arg always encodes to that identical WireValue;
a Timestamp below the offset is the only failure path. -/
theorem claim_C3_amended (a : OscTypeWrapper) (h : timesOk a = true) :
    ∃ j, serializeArg a = some j ∧ ∀ j2, serializeArg a = some j2 → j2 = j := by
  have hs := serializeArg_isSome a h
  rw [Option.isSome_iff_exists] at hs
  obtain ⟨j, hj⟩ := hs
  refine ⟨j, hj, fun j2 hj2 => ?_⟩
  rw [hj] at hj2
  exact (Option.some_inj.mp hj2).symm

/-- C3 witness: amended claim at a nested array holding a valid
timestamp. -/
theorem claim_C3_witness :
    timesOk (OscTypeWrapper.Array [OscTypeWrapper.Time (2208988800, 5), OscTypeWrapper.Nil]) = true ∧
    ∃ j, serializeArg (OscTypeWrapper.Array [OscTypeWrapper.Time (2208988800, 5), OscTypeWrapper.Nil]) = some j ∧
      ∀ j2, serializeArg (OscTypeWrapper.Array [OscTypeWrapper.Time (2208988800, 5), OscTypeWrapper.Nil]) = some j2 → j2 = j :=
  ⟨by decide, claim_C3_amended _ (by decide)⟩

/-- C4: normalizing the message at address /x with args Int32 5, Bool
true, Array of Float32 1.5 and Nil yields exactly the reference JSON
string, with serde_json field order (address then args; type then
value). -/
theorem claim_C4_end_to_end :
    serde_json_to_string
      (OscMessageWrapper.mk "/x"
        [OscTypeWrapper.Int 5, OscTypeWrapper.Bool true,
         OscTypeWrapper.Array [OscTypeWrapper.Float (Dyadic.mk 3 1), OscTypeWrapper.Nil]]) =
      some "\x7b\"address\":\"/x\",\"args\":[\x7b\"type\":\"i\",\"value\":5\x7d,true,[\x7b\"type\":\"f\",\"value\":1.5\x7d,null]]\x7d" := by
  decide

/-- C5 counterexample: encoding Timestamp(0, 0) does not produce the
rawNTP/epochTimeMs object the claim promises for every secs and frac:
the u32 subtraction underflows and serialization fails. -/
theorem claim_C5_cex : serializeArg (OscTypeWrapper.Time (0, 0)) = none := rfl

/-- C5 (amended): for every Timestamp whose secs is at least the
2208988800 offset, encoding produces the rawNTP pair and an epochTimeMs
that is the f64 evaluation of ((secs - 2208988800) + frac/2^32) * 1000
(round-to-nearest-even at the addition and the multiplication),
truncated to an unsigned integer. The two reference instances hold
exactly, Timestamp(2208988800, 0) giving 0 and
Timestamp(2208988801, 2147483648) giving 1500; but f64 rounding can
leave the exact-truncation formula of the claim: at
Timestamp(3282730624, 536870911) the code computes 1073741824125 while
the exact formula gives 1073741824124. -/
theorem claim_C5_amended (secs frac : Nat) (h : 2208988800 ≤ secs) :
    serializeArg (OscTypeWrapper.Time (secs, frac)) =
      some (Json.obj [("rawNTP", Json.arr [Json.int (secs : Int), Json.int (frac : Int)]),
                      ("epochTimeMs", Json.int (epochTimeMs secs frac : Int))]) ∧
    epochTimeMs 2208988800 0 = 0 ∧
    epochTimeMs 2208988801 2147483648 = 1500 ∧
    epochTimeMs 3282730624 536870911 = 1073741824125 ∧
    specEpochTimeMs 3282730624 536870911 = 1073741824124 := by
  refine ⟨by simp [serializeArg, h], by decide, by decide, by decide, ?_⟩
  rw [← exactEpochTimeMs_eq_spec 3282730624 536870911 (by decide)]
  decide

/-- C5 witness: the amended claim at the 1.5-second reference
timestamp. -/
theorem claim_C5_witness :
    2208988800 ≤ 2208988801 ∧
    (serializeArg (OscTypeWrapper.Time (2208988801, 2147483648)) =
        some (Json.obj [("rawNTP", Json.arr [Json.int 2208988801, Json.int 2147483648]),
                        ("epochTimeMs", Json.int (epochTimeMs 2208988801 2147483648))]) ∧
      epochTimeMs 2208988800 0 = 0 ∧
      epochTimeMs 2208988801 2147483648 = 1500 ∧
      epochTimeMs 3282730624 536870911 = 1073741824125 ∧
      specEpochTimeMs 3282730624 536870911 = 1073741824124) :=
  ⟨by decide, claim_C5_amended 2208988801 2147483648 (by decide)⟩

/-- C6: over any sequence of well-decoded packets whose messages all
serialize, the ingest loop from its initial state stays running,
publishes exactly the JSON of the messages (nothing for any bundle),
warns exactly once if any bundle occurred and not at all otherwise, and
the loop-local warned_bundle boolean ends up set iff a bundle occurred
(the sticky gate). -/
theorem claim_C6 (pkts : List OscPacket) (h : packetsOk pkts = true) :
    ingestRun (IngestState.mk false [] 0) (pkts.map SocketItem.ok) =
      IngestOutcome.running (IngestState.mk (pkts.any isBundle) (publishedOf pkts)
        (cond (pkts.any isBundle) 1 0)) := by
  rw [ingestRun_ok pkts _ h]
  cases hb : pkts.any isBundle <;> simp [hb]

/-- C6 witness: a run with a bundle, a message and another bundle warns
exactly once and publishes only the message. -/
theorem claim_C6_witness :
    packetsOk demoPkts = true ∧
    ingestRun (IngestState.mk false [] 0) (demoPkts.map SocketItem.ok) =
      IngestOutcome.running (IngestState.mk (demoPkts.any isBundle) (publishedOf demoPkts)
        (cond (demoPkts.any isBundle) 1 0)) :=
  ⟨by decide, claim_C6 demoPkts (by decide)⟩

/-- C7 counterexample: the claim that every variant outside Bool, Array,
Nil and Infinitum uses the type/value envelope is false: Timestamp
encodes to an object with fields rawNTP and epochTimeMs, which is not
the envelope. -/
theorem claim_C7_cex :
    serializeArg (OscTypeWrapper.Time (2208988800, 0)) =
      some (Json.obj [("rawNTP", Json.arr [Json.int 2208988800, Json.int 0]),
                      ("epochTimeMs", Json.int 0)]) ∧
    isEnvelope (Json.obj [("rawNTP", Json.arr [Json.int 2208988800, Json.int 0]),
                          ("epochTimeMs", Json.int 0)]) = false :=
  ⟨rfl, rfl⟩

/-- C7 (amended): Bool encodes to a bare JSON boolean, Array to a bare
JSON array of its recursively encoded elements in order, Nil to JSON
null, Infinitum to the JSON float 1.0; every other variant except
Timestamp uses the type/value envelope with its fixed tag letter, and
Timestamp uses the rawNTP/epochTimeMs object instead. -/
theorem claim_C7_amended :
    (∀ b, serializeArg (OscTypeWrapper.Bool b) = some (Json.bool b)) ∧
    (∀ xs js, serializeArgs xs = some js →
      serializeArg (OscTypeWrapper.Array xs) = some (Json.arr js)) ∧
    serializeArg OscTypeWrapper.Nil = some Json.null ∧
    serializeArg OscTypeWrapper.Inf = some (Json.float (Dyadic.mk 1 0)) ∧
    (∀ i, serializeArg (OscTypeWrapper.Int i) =
      some (Json.obj [("type", Json.str "i"), ("value", Json.int i)])) ∧
    (∀ f, serializeArg (OscTypeWrapper.Float f) =
      some (Json.obj [("type", Json.str "f"), ("value", Json.float f)])) ∧
    (∀ s, serializeArg (OscTypeWrapper.String s) =
      some (Json.obj [("type", Json.str "s"), ("value", Json.str s)])) ∧
    (∀ bs, serializeArg (OscTypeWrapper.Blob bs) =
      some (Json.obj [("type", Json.str "b"),
                      ("value", Json.arr (bs.map fun x => Json.int (x : Int)))])) ∧
    (∀ h, serializeArg (OscTypeWrapper.Long h) =
      some (Json.obj [("type", Json.str "h"), ("value", Json.int h)])) ∧
    (∀ d, serializeArg (OscTypeWrapper.Double d) =
      some (Json.obj [("type", Json.str "d"), ("value", Json.float d)])) ∧
    (∀ c, serializeArg (OscTypeWrapper.Char c) =
      some (Json.obj [("type", Json.str "c"), ("value", Json.str (String.mk [c]))])) ∧
    (∀ c, serializeArg (OscTypeWrapper.Color c) =
      some (Json.obj [("type", Json.str "r"),
                      ("value", Json.obj [("r", Json.int (c.r : Int)), ("g", Json.int (c.g : Int)),
                                          ("b", Json.int (c.b : Int)), ("a", Json.int (c.a : Int))])])) ∧
    (∀ m, serializeArg (OscTypeWrapper.Midi m) =
      some (Json.obj [("type", Json.str "m"),
                      ("value", Json.arr (m.map fun x => Json.int (x : Int)))])) ∧
    (∀ secs frac, 2208988800 ≤ secs →
      serializeArg (OscTypeWrapper.Time (secs, frac)) =
        some (Json.obj [("rawNTP", Json.arr [Json.int (secs : Int), Json.int (frac : Int)]),
                        ("epochTimeMs", Json.int (epochTimeMs secs frac : Int))])) := by
  refine ⟨fun b => rfl, ?_, rfl, rfl, fun i => rfl, fun f => rfl, fun s => rfl, fun bs => rfl,
          fun h => rfl, fun d => rfl, fun c => rfl, fun c => rfl, fun m => rfl, ?_⟩
  · intro xs js hjs
    simp [serializeArg, hjs]
  · intro secs frac h
    simp [serializeArg, h]

/-- C7 witness: the Array conjunct at a singleton Nil array and the
Timestamp conjunct at the 1.5-second reference timestamp. -/
theorem claim_C7_witness :
    (serializeArgs [OscTypeWrapper.Nil] = some [Json.null] ∧
      serializeArg (OscTypeWrapper.Array [OscTypeWrapper.Nil]) = some (Json.arr [Json.null])) ∧
    (2208988800 ≤ 2208988801 ∧
      serializeArg (OscTypeWrapper.Time (2208988801, 2147483648)) =
        some (Json.obj [("rawNTP", Json.arr [Json.int 2208988801, Json.int 2147483648]),
                        ("epochTimeMs", Json.int (epochTimeMs 2208988801 2147483648))])) := by
  obtain ⟨-, hArr, -, -, -, -, -, -, -, -, -, -, -, hTime⟩ := claim_C7_amended
  exact ⟨⟨rfl, hArr _ _ rfl⟩, ⟨by decide, hTime _ _ (by decide)⟩⟩

/-- C8: the broadcast channel is created with the fixed capacity 16; a
publish appends unconditionally, as a function of the bus and the item
only (never waiting on subscriber state); and a publish into a full
retention window evicts exactly the oldest retained item while keeping
the window at capacity. -/
theorem claim_C8 :
    oscChannelCapacity = 16 ∧
    (∀ (b : FanoutBus) (msg : String), (b.publish msg).history = b.history ++ [msg]) ∧
    (∀ (b : FanoutBus) (msg : String), oscChannelCapacity ≤ b.history.length →
      (b.publish msg).retained = b.retained.drop 1 ++ [msg] ∧
      (b.publish msg).retained.length = oscChannelCapacity) := by
  refine ⟨rfl, fun b msg => rfl, fun b msg h => ⟨?_, ?_⟩⟩
  · simp only [FanoutBus.retained, FanoutBus.oldestRetained, FanoutBus.publish,
      oscChannelCapacity, List.length_append, List.length_cons, List.length_nil,
      List.drop_drop, List.drop_append_eq_append_drop] at *
    have h2 : b.history.length + 1 - 16 - b.history.length = 0 := by omega
    have h3 : b.history.length + 1 - 16 = b.history.length - 16 + 1 := by omega
    rw [h2, h3]
    simp
  · simp only [FanoutBus.retained, FanoutBus.oldestRetained, FanoutBus.publish,
      oscChannelCapacity, List.length_drop, List.length_append, List.length_cons,
      List.length_nil] at *
    omega

/-- C8 witness: publishing into a bus whose window holds exactly 16
items. -/
theorem claim_C8_witness :
    oscChannelCapacity ≤ fullDemoBus.history.length ∧
    (fullDemoBus.publish "b").retained = fullDemoBus.retained.drop 1 ++ ["b"] ∧
    (fullDemoBus.publish "b").retained.length = oscChannelCapacity :=
  ⟨by decide, (claim_C8.2.2 fullDemoBus "b" (by decide)).1,
    (claim_C8.2.2 fullDemoBus "b" (by decide)).2⟩

/-- C9: handling a send failure in subscriber i vacates exactly slot i:
the bus is unchanged, every other subscriber slot is unchanged, and
slot i (when it exists) becomes terminated. -/
theorem claim_C9 (sys : FanoutSystem) (i j : Nat) (hij : j ≠ i) :
    (handleSendFailure sys i).bus = sys.bus ∧
    (handleSendFailure sys i).subs[j]? = sys.subs[j]? ∧
    (i < sys.subs.length → (handleSendFailure sys i).subs[i]? = some none) := by
  refine ⟨rfl, ?_, fun hi => ?_⟩
  · simp [handleSendFailure, List.getElem?_set_ne (Ne.symm hij)]
  · simp [handleSendFailure, List.getElem?_set_self hi]

/-- C9 witness: in a two-subscriber system, subscriber 0 failing leaves
the bus and subscriber 1 untouched while slot 0 terminates. -/
theorem claim_C9_witness :
    (1 ≠ 0) ∧ 0 < demoSystem.subs.length ∧
    (handleSendFailure demoSystem 0).bus = demoSystem.bus ∧
    (handleSendFailure demoSystem 0).subs[1]? = demoSystem.subs[1]? ∧
    (handleSendFailure demoSystem 0).subs[0]? = some none :=
  ⟨by decide, by decide, (claim_C9 demoSystem 0 1 (by decide)).1,
    (claim_C9 demoSystem 0 1 (by decide)).2.1,
    (claim_C9 demoSystem 0 1 (by decide)).2.2 (by decide)⟩

/-- C10: in every channel state reachable during the process lifetime,
main still holds the original receiver, so the receiver count is
positive and the broadcast send returns Ok: the unwrap at the publish
site never panics. -/
theorem claim_C10 (c : ChannelHandles) (h : HandleReachable c) : sendOk c = true := by
  have horig : c.origReceiverAlive = true := by
    induction h with
    | init => rfl
    | step c c2 hr hs ih => cases hs <;> simpa using ih
  have : 0 < receiverCount c := by
    unfold receiverCount
    rw [horig]
    simp
  simpa [sendOk] using this

/-- C10 witness: the initial channel state, where main holds the original
receiver and no subscriber has joined. -/
theorem claim_C10_witness :
    HandleReachable (ChannelHandles.mk true 0) ∧ sendOk (ChannelHandles.mk true 0) = true :=
  ⟨HandleReachable.init, claim_C10 _ HandleReachable.init⟩
